import Mathlib

/-!
Verification of the lockr secret-store client core: path resolution
(`buildPath` in cmd/list.go) and the SSM Parameter Store protocol adapter
(internal/ssm/client.go).  The remote store is modelled as an abstract
oracle (`SsmServer`) whose response to each endpoint may depend on the
history of calls already issued; every client operation returns its result
together with the trace of remote calls it made, so that sequencing claims
(call order, call counts, call payloads) are statable.
-/

set_option maxHeartbeats 1000000

namespace Lockr

/-- Go `strings.HasPrefix(s, p)`: `p` is a prefix of `s`. -/
def hasPfx (s p : String) : Bool :=
  p.toList.isPrefixOf s.toList

/-- Go `strings.Trim(s, "/")`: strip all leading and trailing `/` runes. -/
def trimSlashes (s : String) : String :=
  String.mk (((s.toList.dropWhile (fun c => c == '/')).reverse.dropWhile
    (fun c => c == '/')).reverse)

/-- Embedding of `buildPath` (cmd/list.go lines 566-589).  `input` is the
function argument; `pfx` and `env` embed the ambient `cfg.Prefix` and
`cfg.Env` configuration fields. -/
def buildPath (input pfx env : String) : String :=
  if hasPfx input "/" then
    input
  else
    let parts : List String :=
      (if pfx ≠ "" then [trimSlashes pfx] else []) ++
      (if env ≠ "" then [env] else []) ++
      [input]
    "/" ++ String.intercalate "/" parts

/-- The resolver as the claim words it: the stripped prefix is omitted
when the *stripped* value is empty ("the configured prefix with
leading/trailing '/' stripped (omitted if empty)"). -/
def resolveSpec (input pfx env : String) : String :=
  if hasPfx input "/" then
    input
  else
    let parts : List String :=
      (if trimSlashes pfx ≠ "" then [trimSlashes pfx] else []) ++
      (if env ≠ "" then [env] else []) ++
      [input]
    "/" ++ String.intercalate "/" parts

/-- The resolver as the amended claim words it: the stripped prefix is
included whenever the *configured* (unstripped) prefix is non-empty, even
when stripping leaves it empty. -/
def resolveAmended (input pfx env : String) : String :=
  if hasPfx input "/" then
    input
  else
    let parts : List String :=
      (if pfx ≠ "" then [trimSlashes pfx] else []) ++
      (if env ≠ "" then [env] else []) ++
      [input]
    "/" ++ String.intercalate "/" parts

/-- The `/`-separated segments of a string, as a list of chars worklist:
`segmentsAux cur l` processes `l` with `cur` holding the (reversed)
characters of the segment currently being read. -/
def segmentsAux (cur : List Char) : List Char → List (List Char)
  | [] => [cur.reverse]
  | c :: rest =>
      if c == '/' then cur.reverse :: segmentsAux [] rest
      else segmentsAux (c :: cur) rest

/-- The `/`-separated segments of a string (an absolute path `/a/b` has a
leading empty segment followed by `["a", "b"]`). -/
def segments (s : String) : List String :=
  (segmentsAux [] s.toList).map String.mk
/-! ## The SSM Parameter Store protocol layer (internal/ssm/client.go)

Remote errors are discriminated structurally, matching the Go code's
`errors.As` checks on `types.ParameterAlreadyExists` and
`types.ParameterNotFound`; every other remote failure is `other`. -/

inductive AwsErr where
  | parameterAlreadyExists
  | parameterNotFound
  | other (msg : String)
deriving DecidableEq, Repr

/-- Embedding of `ssm.PutParameterInput` as populated by `WriteSecret`
(client.go lines 64-73): the Go SDK struct's `Overwrite` is a `*bool`
(`none` = unset = non-overwriting) and its `Tags` field is never set by
this client (always `[]`). -/
structure PutParameterInput where
  name : String
  value : String
  paramType : String
  keyId : Option String
  overwrite : Option Bool
  tags : List (String × String)
deriving DecidableEq, Repr

/-- Embedding of `ssm.GetParameterInput`. -/
structure GetParameterInput where
  name : String
  withDecryption : Bool
deriving DecidableEq, Repr

/-- Embedding of `ssm.GetParametersByPathInput` as populated by
`ListSecrets` (client.go lines 166-170). -/
structure GetParametersByPathInput where
  path : String
  recursive : Bool
  withDecryption : Bool
deriving DecidableEq, Repr

/-- A parameter record as returned by the remote `GetParameter` call. -/
structure ParameterData where
  name : String
  value : String
  paramType : String
  version : Int
deriving DecidableEq, Repr

/-- A parameter record as returned inside a `GetParametersByPath` page. -/
structure PageParam where
  name : String
  paramType : String
  version : Int
  lastModified : Option Int
deriving DecidableEq, Repr

/-- One remote call issued by the client, with its full payload. -/
inductive Call where
  | putParameter (input : PutParameterInput)
  | addTagsToResource (resourceId : String) (tags : List (String × String))
  | getParameter (input : GetParameterInput)
  | listTagsForResource (resourceId : String)
  | getParametersByPath (input : GetParametersByPathInput)
  | deleteParameter (name : String)
deriving DecidableEq, Repr

/-- The remote store as an abstract oracle.  Each endpoint's response may
depend on the history of calls issued so far (first argument), which makes
the model as general as an arbitrary deterministic stateful server.  The
paginated listing endpoint is modelled as the sequence of page fetch
outcomes the server would produce for a given request. -/
structure SsmServer where
  putParameter : List Call → PutParameterInput → Except AwsErr Unit
  addTagsToResource : List Call → String → List (String × String) →
    Except AwsErr Unit
  getParameter : List Call → GetParameterInput → Except AwsErr ParameterData
  listTagsForResource : List Call → String →
    Except AwsErr (List (String × String))
  getParametersByPath : GetParametersByPathInput →
    List (Except AwsErr (List PageParam))
  deleteParameter : List Call → String → Except AwsErr Unit

/-- Embedding of `Secret` (client.go lines 16-23); the Go `Tags` map is
modelled as an association list. -/
structure Secret where
  name : String
  value : String
  paramType : String
  version : Int
  description : String
  tags : List (String × String)
deriving DecidableEq, Repr

/-- Embedding of `SecretMetadata` (client.go lines 26-33). -/
structure SecretMetadata where
  name : String
  paramType : String
  version : Int
  lastModified : Option Int
  description : String
  tier : String
deriving DecidableEq, Repr

/-- The `PutParameterInput` built at client.go lines 64-73: type is always
`SecureString`, `KeyId` is set exactly when `kmsKey` is non-empty,
`Overwrite` unset, no tags on the call. -/
def mkPutInput (path value kmsKey : String) : PutParameterInput :=
  { name := path
    value := value
    paramType := "SecureString"
    keyId := if kmsKey ≠ "" then some kmsKey else none
    overwrite := none
    tags := [] }

/-- The retry input of the tagged-write path (client.go line 87): the same
input with `Overwrite` now set to `true`; tags still absent. -/
def retryInput (path value kmsKey : String) : PutParameterInput :=
  { mkPutInput path value kmsKey with overwrite := some true }

/-- Embedding of `SetTags` (client.go lines 108-125): one
`AddTagsToResource` call.  `hist` is the trace of calls already issued by
the enclosing operation. -/
def SetTags (srv : SsmServer) (hist : List Call) (path : String)
    (tags : List (String × String)) : Except AwsErr Unit × List Call :=
  (srv.addTagsToResource hist path tags,
   hist ++ [Call.addTagsToResource path tags])

/-- Embedding of `WriteSecret` (client.go lines 61-105), returning the Go
function's error result together with the trace of remote calls issued. -/
def WriteSecret (srv : SsmServer) (path value : String)
    (tags : List (String × String)) (overwrite : Bool) (kmsKey : String) :
    Except AwsErr Unit × List Call :=
  let input := mkPutInput path value kmsKey
  if tags.length > 0 then
    -- First, try without overwrite (new parameter)
    match srv.putParameter [] input with
    | Except.ok _ =>
        -- Now add/update tags separately
        SetTags srv [Call.putParameter input] path tags
    | Except.error e =>
        if (e == AwsErr.parameterAlreadyExists) && overwrite then
          -- Parameter exists, update with overwrite (no tags)
          let input2 := { input with overwrite := some true }
          match srv.putParameter [Call.putParameter input] input2 with
          | Except.ok _ =>
              SetTags srv [Call.putParameter input, Call.putParameter input2]
                path tags
          | Except.error e2 =>
              (Except.error e2,
               [Call.putParameter input, Call.putParameter input2])
        else
          (Except.error e, [Call.putParameter input])
  else
    -- No tags - simple path
    let input2 := { input with overwrite := some overwrite }
    match srv.putParameter [] input2 with
    | Except.ok _ => (Except.ok (), [Call.putParameter input2])
    | Except.error e => (Except.error e, [Call.putParameter input2])

/-- Embedding of `ReadSecret` (client.go lines 128-160): fetch the value
decrypted; on success fetch tags, ignoring any tag-fetch error. -/
def ReadSecret (srv : SsmServer) (path : String) :
    Except AwsErr Secret × List Call :=
  let c1 := Call.getParameter { name := path, withDecryption := true }
  match srv.getParameter [] { name := path, withDecryption := true } with
  | Except.error e => (Except.error e, [c1])
  | Except.ok result =>
      let secret : Secret :=
        { name := result.name
          value := result.value
          paramType := result.paramType
          version := result.version
          description := ""
          tags := [] }
      let c2 := Call.listTagsForResource path
      match srv.listTagsForResource [c1] path with
      | Except.ok tagList =>
          if tagList.length > 0 then
            (Except.ok { secret with tags := tagList }, [c1, c2])
          else
            (Except.ok secret, [c1, c2])
      | Except.error _ => (Except.ok secret, [c1, c2])

/-- The metadata extracted from one listed parameter (client.go lines
181-191): only name, type, version and last-modified are populated. -/
def toMetadata (p : PageParam) : SecretMetadata :=
  { name := p.name
    paramType := p.paramType
    version := p.version
    lastModified := p.lastModified
    description := ""
    tier := "" }

/-- The paginator loop of `ListSecrets` (client.go lines 175-192):
sequentially fetch pages, aborting on the first failed fetch with no
partial result, otherwise appending every page's entries in order. -/
def pageLoop (acc : List SecretMetadata) :
    List (Except AwsErr (List PageParam)) →
    Except AwsErr (List SecretMetadata)
  | [] => Except.ok acc
  | Except.error e :: _ => Except.error e
  | Except.ok ps :: rest => pageLoop (acc ++ ps.map toMetadata) rest

/-- Embedding of `ListSecrets` (client.go lines 163-195), returning the
result together with the request the paginator was constructed from. -/
def ListSecrets (srv : SsmServer) (path : String) (recursive : Bool) :
    Except AwsErr (List SecretMetadata) × GetParametersByPathInput :=
  let input : GetParametersByPathInput :=
    { path := path, recursive := recursive, withDecryption := false }
  (pageLoop [] (srv.getParametersByPath input), input)

/-- Embedding of `Exists` (client.go lines 208-223): a single
non-decrypting `GetParameter` probe; `ParameterNotFound` maps to `false`
with no error, success to `true`, anything else propagates. -/
def Exists (srv : SsmServer) (path : String) :
    Except AwsErr Bool × List Call :=
  let c := Call.getParameter { name := path, withDecryption := false }
  match srv.getParameter [] { name := path, withDecryption := false } with
  | Except.error e =>
      if e == AwsErr.parameterNotFound then (Except.ok false, [c])
      else (Except.error e, [c])
  | Except.ok _ => (Except.ok true, [c])

/-! ## The write command (cmd/list.go `runWrite`)

Only the logic after the secret value has been resolved from its source
(file / flag / stdin / prompt, all I/O) is embedded: the empty-value
check, tag parsing, and the call into `WriteSecret`. -/

inductive CmdError where
  | emptyValue
  | invalidTagFormat (tag : String)
  | writeFailed (e : AwsErr)
deriving DecidableEq, Repr

/-- Go `strings.SplitN(s, "=", 2)`: split at the first `=` only, or return
the whole string when no `=` occurs. -/
def splitN2Eq (s : String) : List String :=
  match s.toList.findIdx? (fun c => c == '=') with
  | none => [s]
  | some i => [String.mk (s.toList.take i), String.mk (s.toList.drop (i + 1))]

/-- Go map insertion on the association-list model: overwrite the value at
an existing key, otherwise append the binding. -/
def mapInsert (m : List (String × String)) (k v : String) :
    List (String × String) :=
  if m.any (fun p => p.1 == k) then
    m.map (fun p => if p.1 == k then (k, v) else p)
  else
    m ++ [(k, v)]

/-- The tag-parsing loop of `runWrite` (cmd/list.go lines 521-528): each
`--tag` argument must split into exactly key and value around `=`. -/
def parseTags (acc : List (String × String)) :
    List String → Except CmdError (List (String × String))
  | [] => Except.ok acc
  | t :: rest =>
      match splitN2Eq t with
      | [k, v] => parseTags (mapInsert acc k v) rest
      | _ => Except.error (CmdError.invalidTagFormat t)

/-- Embedding of `runWrite` (cmd/list.go lines 480-564) from the point
where the value has been resolved: build the path, reject an empty value
before any client interaction, parse tags, then call `WriteSecret`.  The
second component is the trace of remote calls issued. -/
def runWrite (srv : SsmServer) (arg value : String) (writeTags : List String)
    (writeOverwrite : Bool) (pfx env kmsKey : String) :
    Except CmdError Unit × List Call :=
  let path := buildPath arg pfx env
  if value = "" then
    (Except.error CmdError.emptyValue, [])
  else
    match parseTags [] writeTags with
    | Except.error e => (Except.error e, [])
    | Except.ok tags =>
        match WriteSecret srv path value tags writeOverwrite kmsKey with
        | (Except.ok _, calls) => (Except.ok (), calls)
        | (Except.error e, calls) =>
            (Except.error (CmdError.writeFailed e), calls)

/-! ## Concrete servers used to witness the protocol theorems -/

/-- A server that answers every request successfully: writes and tag
operations succeed, every value read returns a fixed secret under the
requested name, and listings are empty. -/
def srvAllOk : SsmServer where
  putParameter := fun _ _ => Except.ok ()
  addTagsToResource := fun _ _ _ => Except.ok ()
  getParameter := fun _ input =>
    Except.ok { name := input.name, value := "v",
                paramType := "SecureString", version := 1 }
  listTagsForResource := fun _ _ => Except.ok []
  getParametersByPath := fun _ => []
  deleteParameter := fun _ _ => Except.ok ()

/-- A server whose listing endpoint serves three parameters split over
two pages. -/
def srvTwoPages : SsmServer :=
  { srvAllOk with
    getParametersByPath := fun _ =>
      [Except.ok
        [{ name := "/a", paramType := "SecureString", version := 1,
           lastModified := none },
         { name := "/b", paramType := "SecureString", version := 2,
           lastModified := some 5 }],
       Except.ok
        [{ name := "/c", paramType := "SecureString", version := 1,
           lastModified := none }]] }

/-- A server on which the tag-listing endpoint always fails while value
reads succeed. -/
def srvTagsFail : SsmServer :=
  { srvAllOk with
    listTagsForResource := fun _ _ => Except.error (AwsErr.other "denied") }

/-- A server whose value-read response reports a name different from the
requested one. -/
def srvBadName : SsmServer :=
  { srvAllOk with
    getParameter := fun _ _ =>
      Except.ok { name := "/other", value := "v",
                  paramType := "SecureString", version := 1 } }

/-! ## Helper lemmas -/


theorem segmentsAux_append_slash (cur : List Char) (xs ys : List Char) :
    segmentsAux cur (xs ++ '/' :: ys) =
      segmentsAux cur xs ++ segmentsAux [] ys := by
  induction xs generalizing cur with
  | nil => simp [segmentsAux]
  | cons c rest ih =>
      by_cases hc : c = '/'
      · subst hc
        simp [segmentsAux, ih]
      · simp [segmentsAux, hc, ih]

theorem toList_append (a b : String) :
    (a ++ b).toList = a.toList ++ b.toList := by
  cases a; cases b; rfl

theorem segments_append_slash (a b : String) :
    segments (a ++ "/" ++ b) = segments a ++ segments b := by
  unfold segments
  rw [toList_append, toList_append]
  have h0 : "/".toList = ['/'] := rfl
  rw [h0, List.append_assoc]
  rw [show (['/'] ++ b.toList) = '/' :: b.toList from rfl, segmentsAux_append_slash]
  simp

theorem segments_slash_append (b : String) :
    segments ("/" ++ b) = "" :: segments b := by
  unfold segments
  rw [toList_append]
  show ((segmentsAux [] ('/' :: b.toList)).map String.mk) = _
  simp [segmentsAux]

theorem hasPfx_slash_append (s : String) : hasPfx ("/" ++ s) "/" = true := by
  unfold hasPfx
  rw [toList_append]
  simp [List.isPrefixOf]

/-- An input that already starts with `/` is returned verbatim. -/
theorem buildPath_absolute (input pfx env : String)
    (h : hasPfx input "/" = true) : buildPath input pfx env = input := by
  unfold buildPath
  simp [h]

/-- Every result of `buildPath` starts with `/`. -/
theorem buildPath_startsWithSlash (input pfx env : String) :
    hasPfx (buildPath input pfx env) "/" = true := by
  unfold buildPath
  split
  · assumption
  · exact hasPfx_slash_append _

/-- For relative input, the segments of the built path are a leading empty
segment (from the leading `/`) followed by the segments of each included
part. -/
theorem segments_buildPath_rel (input pfx env : String)
    (h : hasPfx input "/" = false) :
    segments (buildPath input pfx env) =
      "" :: ((if pfx ≠ "" then segments (trimSlashes pfx) else []) ++
             (if env ≠ "" then segments env else []) ++ segments input) := by
  unfold buildPath
  rw [h]
  simp only [Bool.false_eq_true, if_false]
  by_cases hp : pfx = "" <;> by_cases he : env = "" <;>
    simp only [hp, he, if_true, if_false, ne_eq, not_true_eq_false,
      not_false_eq_true, List.nil_append, List.append_nil,
      List.singleton_append, List.cons_append]
  · rw [show String.intercalate "/" [input] = input from rfl,
      segments_slash_append]
  · rw [show String.intercalate "/" [env, input] = env ++ "/" ++ input
      from rfl, segments_slash_append, segments_append_slash]
  · rw [show String.intercalate "/" [trimSlashes pfx, input] =
      trimSlashes pfx ++ "/" ++ input from rfl,
      segments_slash_append, segments_append_slash]
  · rw [show String.intercalate "/" [trimSlashes pfx, env, input] =
      trimSlashes pfx ++ "/" ++ env ++ "/" ++ input from rfl,
      segments_slash_append, segments_append_slash, segments_append_slash]

/-! ## Helper lemmas about the paginator loop -/

theorem pageLoop_all_ok (okPages : List (List PageParam))
    (acc : List SecretMetadata) :
    pageLoop acc (okPages.map Except.ok) =
      Except.ok (acc ++ (okPages.flatten).map toMetadata) := by
  induction okPages generalizing acc with
  | nil => simp [pageLoop]
  | cons ps rest ih =>
      simp only [List.map_cons, pageLoop, ih, List.flatten_cons,
        List.map_append, List.append_assoc]

theorem pageLoop_first_error (okPages : List (List PageParam)) (e : AwsErr)
    (rest : List (Except AwsErr (List PageParam)))
    (acc : List SecretMetadata) :
    pageLoop acc (okPages.map Except.ok ++ Except.error e :: rest) =
      Except.error e := by
  induction okPages generalizing acc with
  | nil => simp [pageLoop]
  | cons ps tl ih =>
      simp only [List.map_cons, List.cons_append, pageLoop]
      exact ih _

end Lockr

/-! ## Claims about the path resolver -/

/-- C2 (counterexample): the claimed resolution rule fails on the code.
With configured prefix `"/"` (non-empty, but stripping leaves it empty)
and relative input `"x"`, `buildPath` keeps the empty stripped prefix as a
segment and returns `"//x"`, while the claimed rule (stripped prefix
omitted if empty) yields `"/x"`; the result `"//x"` contains an empty
segment, contradicting "no result contains an empty segment". -/
theorem C2_path_resolution_counterexample :
    Lockr.buildPath "x" "/" "" = "//x" ∧
    Lockr.resolveSpec "x" "/" "" = "/x" ∧
    Lockr.buildPath "x" "/" "" ≠ Lockr.resolveSpec "x" "/" "" ∧
    "" ∈ (Lockr.segments (Lockr.buildPath "x" "/" "")).tail := by
  decide

/-- C2 (amended): an input starting with `/` is returned unchanged;
otherwise the result joins, in order, the stripped configured prefix —
included whenever the *configured* prefix is non-empty, even if stripping
leaves it empty — the configured env (omitted if empty), and the input,
with `/` separators and a single leading `/`.  The two example
resolutions hold, and the result contains no empty segment past the
leading slash provided the stripped prefix is non-empty (or the prefix is
not configured), and env (when configured) and the input themselves
contain no empty segment. -/
theorem C2_path_resolution_amended :
    (∀ input pfx env : String,
      Lockr.buildPath input pfx env = Lockr.resolveAmended input pfx env) ∧
    Lockr.buildPath "x/y" "/infra/saas" "prod" = "/infra/saas/prod/x/y" ∧
    Lockr.buildPath "k" "" "" = "/k" ∧
    (∀ input pfx env : String,
      Lockr.hasPfx input "/" = false →
      (pfx = "" ∨ "" ∉ Lockr.segments (Lockr.trimSlashes pfx)) →
      (env = "" ∨ "" ∉ Lockr.segments env) →
      "" ∉ Lockr.segments input →
      "" ∉ (Lockr.segments (Lockr.buildPath input pfx env)).tail) := by
  refine ⟨fun _ _ _ => rfl, by decide, by decide, ?_⟩
  intro input pfx env h hp he hi
  rw [Lockr.segments_buildPath_rel input pfx env h]
  simp only [List.tail_cons, List.mem_append]
  rintro ((hmem | hmem) | hmem)
  · rcases hp with hp | hp
    · simp [hp] at hmem
    · by_cases hpe : pfx = "" <;> simp [hpe] at hmem
      exact hp hmem
  · rcases he with he | he
    · simp [he] at hmem
    · by_cases hee : env = "" <;> simp [hee] at hmem
      exact he hmem
  · exact hi hmem

/-- C2 (witness for the amended theorem): at input `"x/y"`, prefix
`"/infra/saas"`, env `"prod"`, all hypotheses hold and the resolved path
`/infra/saas/prod/x/y` has no empty segment past the leading slash. -/
theorem C2_path_resolution_amended_witness :
    "" ∉ (Lockr.segments (Lockr.buildPath "x/y" "/infra/saas" "prod")).tail :=
  C2_path_resolution_amended.2.2.2 "x/y" "/infra/saas" "prod"
    (by decide) (by decide) (by decide) (by decide)

/-- C3: path resolution is idempotent — every `buildPath` result starts
with `/`, so resolving it again returns it unchanged. -/
theorem C3_path_resolution_idempotent (input pfx env : String) :
    Lockr.buildPath (Lockr.buildPath input pfx env) pfx env =
      Lockr.buildPath input pfx env :=
  Lockr.buildPath_absolute _ _ _ (Lockr.buildPath_startsWithSlash input pfx env)

/-! ## Claims about the write command -/

/-- C4: a write with an empty value fails before any remote interaction:
for every server, argument, tag list, overwrite flag and configuration,
`runWrite` with `value = ""` returns the empty-value error and its remote
call trace is empty. -/
theorem C4_empty_value_rejected (srv : Lockr.SsmServer) (arg : String)
    (writeTags : List String) (writeOverwrite : Bool)
    (pfx env kmsKey : String) :
    Lockr.runWrite srv arg "" writeTags writeOverwrite pfx env kmsKey =
      (Except.error Lockr.CmdError.emptyValue, []) :=
  rfl

/-! ## Claims about the secret-store client -/

/-- C1: for every write with a non-empty tag map, the first remote write
is non-overwriting (and carries no tags); if it succeeds the only further
call is the tag-set call; on an already-exists failure with
`overwrite = true` the write is retried with overwrite set (still without
tags) and, if that retry succeeds, followed by the tag-set call (a failed
retry propagates its error with no tag-set call); on an already-exists
failure with `overwrite = false` the error propagates with no further
call; any other error on the first write propagates with no further
call. -/
theorem C1_tagged_write_protocol (srv : Lockr.SsmServer) (path value : String)
    (tags : List (String × String)) (overwrite : Bool) (kmsKey : String)
    (htags : tags ≠ []) :
    (Lockr.mkPutInput path value kmsKey).overwrite = none ∧
    (Lockr.mkPutInput path value kmsKey).tags = [] ∧
    (srv.putParameter [] (Lockr.mkPutInput path value kmsKey) = Except.ok () →
      Lockr.WriteSecret srv path value tags overwrite kmsKey =
        (srv.addTagsToResource
          [Lockr.Call.putParameter (Lockr.mkPutInput path value kmsKey)]
          path tags,
         [Lockr.Call.putParameter (Lockr.mkPutInput path value kmsKey),
          Lockr.Call.addTagsToResource path tags])) ∧
    (srv.putParameter [] (Lockr.mkPutInput path value kmsKey) =
        Except.error Lockr.AwsErr.parameterAlreadyExists →
      overwrite = true →
      (Lockr.retryInput path value kmsKey).overwrite = some true ∧
      (Lockr.retryInput path value kmsKey).tags = [] ∧
      (srv.putParameter
          [Lockr.Call.putParameter (Lockr.mkPutInput path value kmsKey)]
          (Lockr.retryInput path value kmsKey) = Except.ok () →
        Lockr.WriteSecret srv path value tags overwrite kmsKey =
          (srv.addTagsToResource
            [Lockr.Call.putParameter (Lockr.mkPutInput path value kmsKey),
             Lockr.Call.putParameter (Lockr.retryInput path value kmsKey)]
            path tags,
           [Lockr.Call.putParameter (Lockr.mkPutInput path value kmsKey),
            Lockr.Call.putParameter (Lockr.retryInput path value kmsKey),
            Lockr.Call.addTagsToResource path tags])) ∧
      (∀ e2 : Lockr.AwsErr,
        srv.putParameter
          [Lockr.Call.putParameter (Lockr.mkPutInput path value kmsKey)]
          (Lockr.retryInput path value kmsKey) = Except.error e2 →
        Lockr.WriteSecret srv path value tags overwrite kmsKey =
          (Except.error e2,
           [Lockr.Call.putParameter (Lockr.mkPutInput path value kmsKey),
            Lockr.Call.putParameter (Lockr.retryInput path value kmsKey)]))) ∧
    (srv.putParameter [] (Lockr.mkPutInput path value kmsKey) =
        Except.error Lockr.AwsErr.parameterAlreadyExists →
      overwrite = false →
      Lockr.WriteSecret srv path value tags overwrite kmsKey =
        (Except.error Lockr.AwsErr.parameterAlreadyExists,
         [Lockr.Call.putParameter (Lockr.mkPutInput path value kmsKey)])) ∧
    (∀ e : Lockr.AwsErr,
      srv.putParameter [] (Lockr.mkPutInput path value kmsKey) =
        Except.error e →
      e ≠ Lockr.AwsErr.parameterAlreadyExists →
      Lockr.WriteSecret srv path value tags overwrite kmsKey =
        (Except.error e,
         [Lockr.Call.putParameter (Lockr.mkPutInput path value kmsKey)])) := by
  have hlen : tags.length > 0 := List.length_pos.mpr htags
  refine ⟨rfl, rfl, ?_, ?_, ?_, ?_⟩
  · intro h1
    simp only [Lockr.WriteSecret, hlen, if_true, h1, Lockr.SetTags,
      List.singleton_append]
  · intro h1 how
    subst how
    refine ⟨rfl, rfl, ?_, ?_⟩
    · intro h2
      simp only [Lockr.WriteSecret, hlen, if_true, h1, Lockr.retryInput] at *
      simp only [h2, Lockr.SetTags, List.cons_append, List.singleton_append]
      simp
    · intro e2 h2
      simp only [Lockr.WriteSecret, hlen, if_true, h1, Lockr.retryInput] at *
      simp only [h2]
      simp
  · intro h1 how
    subst how
    simp only [Lockr.WriteSecret, hlen, if_true, h1]
    simp
  · intro e h1 hne
    simp only [Lockr.WriteSecret, hlen, if_true, h1]
    have hb : (e == Lockr.AwsErr.parameterAlreadyExists) = false := by
      simp [hne]
    simp [hb]

/-- C1 (witness): on a server where every call succeeds, a tagged write
issues exactly the non-overwriting put followed by the tag-set call. -/
theorem C1_tagged_write_protocol_witness :
    Lockr.WriteSecret Lockr.srvAllOk "/p" "v" [("owner", "x")] false "" =
      (Lockr.srvAllOk.addTagsToResource
        [Lockr.Call.putParameter (Lockr.mkPutInput "/p" "v" "")] "/p"
        [("owner", "x")],
       [Lockr.Call.putParameter (Lockr.mkPutInput "/p" "v" ""),
        Lockr.Call.addTagsToResource "/p" [("owner", "x")]]) :=
  (C1_tagged_write_protocol Lockr.srvAllOk "/p" "v" [("owner", "x")] false ""
    (by decide)).2.2.1 rfl

/-- C5: the listing request always disables decryption; when every remote
page fetch succeeds the result is the order-preserving concatenation of
all pages' entries (exactly N items for N stored items, no duplicates, no
omissions); when any page fetch fails the whole listing fails with that
error and no partial result is returned. -/
theorem C5_listing_pagination (srv : Lockr.SsmServer) (path : String)
    (recursive : Bool) :
    (Lockr.ListSecrets srv path recursive).2 =
      { path := path, recursive := recursive, withDecryption := false } ∧
    (∀ okPages : List (List Lockr.PageParam),
      srv.getParametersByPath
          { path := path, recursive := recursive, withDecryption := false } =
        okPages.map Except.ok →
      (Lockr.ListSecrets srv path recursive).1 =
        Except.ok (okPages.flatten.map Lockr.toMetadata)) ∧
    (∀ (okPages : List (List Lockr.PageParam)) (e : Lockr.AwsErr)
        (rest : List (Except Lockr.AwsErr (List Lockr.PageParam))),
      srv.getParametersByPath
          { path := path, recursive := recursive, withDecryption := false } =
        okPages.map Except.ok ++ Except.error e :: rest →
      (Lockr.ListSecrets srv path recursive).1 = Except.error e) := by
  refine ⟨rfl, ?_, ?_⟩
  · intro okPages h
    simp only [Lockr.ListSecrets, h, Lockr.pageLoop_all_ok, List.nil_append]
  · intro okPages e rest h
    simp only [Lockr.ListSecrets, h, Lockr.pageLoop_first_error]

/-- C5 (witness): on a server serving three parameters over two pages, the
listing aggregates all three entries in order. -/
theorem C5_listing_pagination_witness :
    (Lockr.ListSecrets Lockr.srvTwoPages "/" true).1 =
      Except.ok
        ([[{ name := "/a", paramType := "SecureString", version := 1,
             lastModified := none },
           { name := "/b", paramType := "SecureString", version := 2,
             lastModified := some 5 }],
          [{ name := "/c", paramType := "SecureString", version := 1,
             lastModified := none }]].flatten.map Lockr.toMetadata) :=
  (C5_listing_pagination Lockr.srvTwoPages "/" true).2.1 _ rfl

/-- C6: the existence probe issues exactly one non-decrypting
`GetParameter` call (so the plaintext is never requested); a successful
probe yields `true`, the store's not-found outcome yields `false` with no
error, and every other remote error propagates. -/
theorem C6_exists_probe (srv : Lockr.SsmServer) (path : String) :
    (Lockr.Exists srv path).2 =
      [Lockr.Call.getParameter { name := path, withDecryption := false }] ∧
    (∀ d : Lockr.ParameterData,
      srv.getParameter [] { name := path, withDecryption := false } =
        Except.ok d →
      (Lockr.Exists srv path).1 = Except.ok true) ∧
    (srv.getParameter [] { name := path, withDecryption := false } =
        Except.error Lockr.AwsErr.parameterNotFound →
      (Lockr.Exists srv path).1 = Except.ok false) ∧
    (∀ e : Lockr.AwsErr,
      srv.getParameter [] { name := path, withDecryption := false } =
        Except.error e →
      e ≠ Lockr.AwsErr.parameterNotFound →
      (Lockr.Exists srv path).1 = Except.error e) := by
  refine ⟨?_, ?_, ?_, ?_⟩
  · unfold Lockr.Exists
    cases h : srv.getParameter [] { name := path, withDecryption := false } with
    | ok d => rfl
    | error e => by_cases he : e == Lockr.AwsErr.parameterNotFound <;> simp [he]
  · intro d h
    simp only [Lockr.Exists, h]
  · intro h
    simp only [Lockr.Exists, h]
    rfl
  · intro e h hne
    simp only [Lockr.Exists, h]
    rw [if_neg]
    simp [hne]

/-- C6 (witness): on a server where the probed path is present, `Exists`
returns `true`. -/
theorem C6_exists_probe_witness :
    (Lockr.Exists Lockr.srvAllOk "/p").1 = Except.ok true :=
  (C6_exists_probe Lockr.srvAllOk "/p").2.1
    { name := "/p", value := "v", paramType := "SecureString", version := 1 }
    rfl

/-- C7: the value fetch of a read is decrypting (it is the first remote
call, with decryption enabled), and a tag-fetch failure after a
successful value fetch is swallowed: the read still succeeds, returning
the fetched value with empty tags. -/
theorem C7_read_tags_best_effort (srv : Lockr.SsmServer) (path : String)
    (data : Lockr.ParameterData) (e : Lockr.AwsErr)
    (hval : srv.getParameter [] { name := path, withDecryption := true } =
      Except.ok data)
    (htags : srv.listTagsForResource
        [Lockr.Call.getParameter { name := path, withDecryption := true }]
        path = Except.error e) :
    Lockr.ReadSecret srv path =
      (Except.ok { name := data.name, value := data.value,
                   paramType := data.paramType, version := data.version,
                   description := "", tags := [] },
       [Lockr.Call.getParameter { name := path, withDecryption := true },
        Lockr.Call.listTagsForResource path]) ∧
    (Lockr.ReadSecret srv path).2.head? =
      some (Lockr.Call.getParameter { name := path, withDecryption := true }) := by
  constructor
  · simp only [Lockr.ReadSecret, hval, htags]
  · simp only [Lockr.ReadSecret, hval, htags, List.head?_cons]

/-- C7 (witness): on a server whose tag-listing endpoint always fails, a
read still succeeds and returns the secret with empty tags. -/
theorem C7_read_tags_best_effort_witness :
    Lockr.ReadSecret Lockr.srvTagsFail "/p" =
      (Except.ok { name := "/p", value := "v",
                   paramType := "SecureString", version := 1,
                   description := "", tags := [] },
       [Lockr.Call.getParameter { name := "/p", withDecryption := true },
        Lockr.Call.listTagsForResource "/p"]) :=
  (C7_read_tags_best_effort Lockr.srvTagsFail "/p"
    { name := "/p", value := "v", paramType := "SecureString", version := 1 }
    (Lockr.AwsErr.other "denied") rfl rfl).1

/-- C8 (counterexample): the returned Secret's name is copied from the
store's response (client.go line 141), not from the requested path.  On a
server whose value response reports the name `/other` for a read of
`/p`, the read succeeds with `name = "/other" ≠ "/p"`. -/
theorem C8_read_name_counterexample :
    (Lockr.ReadSecret Lockr.srvBadName "/p").1 =
      Except.ok { name := "/other", value := "v",
                  paramType := "SecureString", version := 1,
                  description := "", tags := [] } ∧
    ("/other" : String) ≠ "/p" :=
  ⟨rfl, by decide⟩

/-- C8 (amended): the returned Secret's name equals the name field of the
store's successful value response; hence it equals the requested path
whenever the store echoes the requested name (as the real store does for
name-addressed reads). -/
theorem C8_read_name_amended (srv : Lockr.SsmServer) (path : String)
    (hecho : ∀ d : Lockr.ParameterData,
      srv.getParameter [] { name := path, withDecryption := true } =
        Except.ok d → d.name = path) :
    ∀ s : Lockr.Secret,
      (Lockr.ReadSecret srv path).1 = Except.ok s → s.name = path := by
  intro s hs
  unfold Lockr.ReadSecret at hs
  cases hg : srv.getParameter [] { name := path, withDecryption := true } with
  | error e => rw [hg] at hs; exact absurd hs (by simp)
  | ok d =>
      rw [hg] at hs
      have hd := hecho d hg
      simp only at hs
      cases ht : srv.listTagsForResource
          [Lockr.Call.getParameter { name := path, withDecryption := true }]
          path with
      | error e2 =>
          rw [ht] at hs
          simp only [Except.ok.injEq] at hs
          rw [← hs]
          exact hd
      | ok tl =>
          rw [ht] at hs
          by_cases hl : tl.length > 0 <;>
            simp only [hl, if_true, if_false, Except.ok.injEq] at hs <;>
            rw [← hs] <;> exact hd

/-- C8 (witness for the amended theorem): on a name-echoing server a read
of `/p` returns a Secret named `/p`. -/
theorem C8_read_name_amended_witness :
    ({ name := "/p", value := "v", paramType := "SecureString", version := 1,
       description := "", tags := [] } : Lockr.Secret).name = "/p" :=
  C8_read_name_amended Lockr.srvAllOk "/p"
    (fun d hd => by injection hd with h; rw [← h]) _ rfl

/-- Every `PutParameter` call issued by `WriteSecret` carries the base
input or the base input with only the `Overwrite` field set. -/
theorem putCalls_of_WriteSecret (srv : Lockr.SsmServer) (path value : String)
    (tags : List (String × String)) (overwrite : Bool) (kmsKey : String)
    (inp : Lockr.PutParameterInput)
    (hmem : Lockr.Call.putParameter inp ∈
      (Lockr.WriteSecret srv path value tags overwrite kmsKey).2) :
    inp = Lockr.mkPutInput path value kmsKey ∨
    inp = { Lockr.mkPutInput path value kmsKey with overwrite := some true } ∨
    inp = { Lockr.mkPutInput path value kmsKey with
              overwrite := some overwrite } := by
  simp only [Lockr.WriteSecret] at hmem
  split at hmem
  · split at hmem
    · simp only [Lockr.SetTags, List.singleton_append, List.mem_cons,
        List.mem_singleton, List.not_mem_nil] at hmem
      rcases hmem with h | h
      · exact Or.inl (Lockr.Call.putParameter.inj h)
      · exact absurd h (by simp)
    · split at hmem
      · split at hmem
        · simp only [Lockr.SetTags, List.cons_append, List.singleton_append,
            List.mem_cons, List.not_mem_nil] at hmem
          rcases hmem with h | h | h
          · exact Or.inl (Lockr.Call.putParameter.inj h)
          · exact Or.inr (Or.inl (Lockr.Call.putParameter.inj h))
          · exact absurd h (by simp)
        · simp only [List.mem_cons, List.not_mem_nil, or_false] at hmem
          rcases hmem with h | h
          · exact Or.inl (Lockr.Call.putParameter.inj h)
          · exact Or.inr (Or.inl (Lockr.Call.putParameter.inj h))
      · simp only [List.mem_singleton] at hmem
        exact Or.inl (Lockr.Call.putParameter.inj hmem)
  · split at hmem
    · simp only [List.mem_singleton] at hmem
      exact Or.inr (Or.inr (Lockr.Call.putParameter.inj hmem))
    · simp only [List.mem_singleton] at hmem
      exact Or.inr (Or.inr (Lockr.Call.putParameter.inj hmem))

/-- C9: every remote write call issued by any `WriteSecret` invocation
stores the parameter as `SecureString`, and carries an explicit
encryption key — namely the provided one — exactly when `kmsKey` is
non-empty. -/
theorem C9_secure_string_kms (srv : Lockr.SsmServer) (path value : String)
    (tags : List (String × String)) (overwrite : Bool) (kmsKey : String)
    (inp : Lockr.PutParameterInput)
    (hmem : Lockr.Call.putParameter inp ∈
      (Lockr.WriteSecret srv path value tags overwrite kmsKey).2) :
    inp.paramType = "SecureString" ∧
    inp.keyId = (if kmsKey ≠ "" then some kmsKey else none) ∧
    (inp.keyId.isSome = true ↔ kmsKey ≠ "") := by
  rcases putCalls_of_WriteSecret srv path value tags overwrite kmsKey inp hmem
    with h | h | h <;> subst h <;>
    refine ⟨rfl, rfl, ?_⟩ <;>
    by_cases hk : kmsKey = "" <;> simp [Lockr.mkPutInput, hk]

/-- C9 (witness): at a concrete untagged write with a configured key, the
single put call is `SecureString` with that key attached. -/
theorem C9_secure_string_kms_witness :
    ({ Lockr.mkPutInput "/p" "v" "alias/k" with overwrite := some false } :
        Lockr.PutParameterInput).paramType = "SecureString" ∧
    ({ Lockr.mkPutInput "/p" "v" "alias/k" with overwrite := some false } :
        Lockr.PutParameterInput).keyId =
      (if ("alias/k" : String) ≠ "" then some "alias/k" else none) ∧
    (({ Lockr.mkPutInput "/p" "v" "alias/k" with overwrite := some false } :
        Lockr.PutParameterInput).keyId.isSome = true ↔
      ("alias/k" : String) ≠ "") :=
  C9_secure_string_kms Lockr.srvAllOk "/p" "v" [] false "alias/k"
    { Lockr.mkPutInput "/p" "v" "alias/k" with overwrite := some false }
    (by decide)

/-- C10: when the first (non-overwriting) write of a tagged write
succeeds, the whole operation — result and remote call sequence alike —
is identical for `overwrite = true` and `overwrite = false`: the flag is
consulted only after an already-exists failure. -/
theorem C10_overwrite_flag_unused_on_success (srv : Lockr.SsmServer)
    (path value : String) (tags : List (String × String)) (kmsKey : String)
    (htags : tags ≠ [])
    (hok : srv.putParameter [] (Lockr.mkPutInput path value kmsKey) =
      Except.ok ()) :
    Lockr.WriteSecret srv path value tags true kmsKey =
      Lockr.WriteSecret srv path value tags false kmsKey := by
  have hlen : tags.length > 0 := List.length_pos.mpr htags
  simp only [Lockr.WriteSecret, hlen, if_true, hok]

/-- C10 (witness): concrete all-success server, tagged write to a fresh
path — both overwrite flags produce the same calls and result. -/
theorem C10_overwrite_flag_unused_on_success_witness :
    Lockr.WriteSecret Lockr.srvAllOk "/p" "v" [("owner", "x")] true "" =
      Lockr.WriteSecret Lockr.srvAllOk "/p" "v" [("owner", "x")] false "" :=
  C10_overwrite_flag_unused_on_success Lockr.srvAllOk "/p" "v"
    [("owner", "x")] "" (by decide) rfl
